import Mathlib

/-!
Verification of the go-sphere/telegram-bot update-dispatch pipeline.

The Go sources are shallowly embedded: Go strings become `List Char`
(Go slices strings by byte; every concrete input used below is ASCII, where
bytes and characters coincide), nil-able pointers and nil-able slices become
`Option`, and fallible operations return `Option`/`Except`.  External
collaborators (the platform client, the rate limiter, the signer, the
payload serializer) are passed in as function parameters, exactly as the
spec's section 6 describes them as capability surfaces.
-/

namespace TelegramBot

/-! ## Data model for the mention filter (middleware.go) -/

/-- Chat types; `isGroupChatType` below recognises group, supergroup and
channel, mirroring the `isGroupChatType` closure of
`NewGroupMessageFilterMiddleware`. -/
inductive GoChatType where
  | privateChat
  | group
  | supergroup
  | channel
deriving DecidableEq, Repr

/-- Message-entity kinds handled by `checkMention`; `hashtag` stands for any
kind that falls into the `default` branch of the Go `switch`. -/
inductive EntityType where
  | mention
  | textMention
  | botCommand
  | hashtag
deriving DecidableEq, Repr

/-- One `models.MessageEntity`: a typed span `[offset, offset+length)` of the
message text.  `user` is the id of the referenced user (the Telegram API
guarantees a `text_mention` entity always carries a user object). -/
structure MessageEntity where
  type : EntityType
  offset : Nat
  length : Nat
  user : Int
deriving DecidableEq, Repr

/-- The slice of `models.Message` the filter middleware reads and writes:
text and caption with their entity lists (`Option` models a nil slice), the
chat type, and the sender id of the replied-to message when present. -/
structure GoMessage where
  chatType : GoChatType
  text : List Char
  entities : Option (List MessageEntity)
  caption : List Char
  captionEntities : Option (List MessageEntity)
  replyToFromId : Option Int
deriving DecidableEq, Repr

def isGroupChatType (t : GoChatType) : Bool :=
  t == .group || t == .supergroup || t == .channel

/-- Go `strings.ReplaceAll s old new` for a non-empty `old`: replaces
non-overlapping occurrences left to right. -/
def replaceAll (s pat rep : List Char) : List Char :=
  if h : pat = [] then s
  else
    match s with
    | [] => []
    | c :: rest =>
      if pat.isPrefixOf (c :: rest) then
        rep ++ replaceAll ((c :: rest).drop pat.length) pat rep
      else
        c :: replaceAll rest pat rep
termination_by s.length
decreasing_by
  · simp only [List.length_drop, List.length_cons]
    have : pat.length ≠ 0 := fun hn => h (List.length_eq_zero.mp hn)
    omega
  · simp [List.length_cons]

/-- The `for _, entity := range entities` loop body of `checkMention` in
`NewGroupMessageFilterMiddleware`.  `text` is the live string the loop
variable holds at this iteration (the Go code reassigns `text` in place), and
`isMention` the flag accumulated so far. -/
def checkMentionLoop (id : Int) (username : List Char) (trimMention : Bool) :
    List MessageEntity → List Char → Bool → List Char × Bool
  | [], text, isMention => (text, isMention)
  | e :: rest, text, isMention =>
    match e.type with
    | .mention =>
      let entityStr := (text.drop e.offset).take e.length
      if entityStr = '@' :: username then
        checkMentionLoop id username trimMention rest
          (if trimMention then text.take e.offset ++ text.drop (e.offset + e.length) else text)
          true
      else
        checkMentionLoop id username trimMention rest text isMention
    | .textMention =>
      if e.user = id then
        checkMentionLoop id username trimMention rest
          (if trimMention then text.take e.offset ++ text.drop (e.offset + e.length) else text)
          true
      else
        checkMentionLoop id username trimMention rest text isMention
    | .botCommand =>
      let entityStr := (text.drop e.offset).take e.length
      if ('@' :: username).isSuffixOf entityStr then
        checkMentionLoop id username trimMention rest
          (if trimMention then
            text.take e.offset ++ replaceAll entityStr ('@' :: username) []
              ++ text.drop (e.offset + e.length)
          else text)
          true
      else
        checkMentionLoop id username trimMention rest text isMention
    | .hashtag =>
      checkMentionLoop id username trimMention rest text isMention

/-- Function `checkMention(text, entities, id, username, trimMention)` from
`NewGroupMessageFilterMiddleware`: scans the entities, returning the possibly
trimmed text and whether the bot was mentioned. -/
def checkMention (text : List Char) (entities : List MessageEntity) (id : Int)
    (username : List Char) (trimMention : Bool) : List Char × Bool :=
  checkMentionLoop id username trimMention entities text false

/-- One entity evaluated against the current live text: the substring is read
from the text as already mutated by earlier trims of the same pass, and a
match excises immediately. -/
def checkMentionStep (id : Int) (username : List Char) (trimMention : Bool)
    (st : List Char × Bool) (e : MessageEntity) : List Char × Bool :=
  let text := st.1
  match e.type with
  | .mention =>
    let entityStr := (text.drop e.offset).take e.length
    if entityStr = '@' :: username then
      ((if trimMention then text.take e.offset ++ text.drop (e.offset + e.length) else text), true)
    else st
  | .textMention =>
    if e.user = id then
      ((if trimMention then text.take e.offset ++ text.drop (e.offset + e.length) else text), true)
    else st
  | .botCommand =>
    let entityStr := (text.drop e.offset).take e.length
    if ('@' :: username).isSuffixOf entityStr then
      ((if trimMention then
          text.take e.offset ++ replaceAll entityStr ('@' :: username) []
            ++ text.drop (e.offset + e.length)
        else text), true)
    else st
  | .hashtag => st

/-- Does entity `e` address the bot when judged against the fixed string
`text`?  Used by the spec-side scan below. -/
def entityMatches (text : List Char) (id : Int) (username : List Char)
    (e : MessageEntity) : Bool :=
  let entityStr := (text.drop e.offset).take e.length
  match e.type with
  | .mention => entityStr == '@' :: username
  | .textMention => e.user == id
  | .botCommand => ('@' :: username).isSuffixOf entityStr
  | .hashtag => false

/-- The span of the matched substring of an entity: the whole entity span for
`mention`/`text_mention`, and the trailing `"@" + username` for
`bot_command`. -/
def matchedSpan (username : List Char) (e : MessageEntity) : Nat × Nat :=
  match e.type with
  | .botCommand => (e.offset + e.length - (username.length + 1), username.length + 1)
  | _ => (e.offset, e.length)

/-- Remove from `text` every position covered by one of the given
`(offset, length)` spans, all spans being offsets into the same original
string. -/
def exciseAll (text : List Char) (spans : List (Nat × Nat)) : List Char :=
  (text.enum.filter
    (fun p => !(spans.any (fun sp => decide (sp.1 ≤ p.1 ∧ p.1 < sp.1 + sp.2))))).map (·.2)

/-- Modelled from the spec: the mention scan as the specification sentences
for claim C1 describe it: every entity is evaluated against the original,
untrimmed string offsets, and when `trimMention` is set the matched
substrings are excised only once the scan of the field completes. -/
def checkMentionSpecScan (text : List Char) (entities : List MessageEntity) (id : Int)
    (username : List Char) (trimMention : Bool) : List Char × Bool :=
  let matched := entities.filter (entityMatches text id username)
  let text2 :=
    if trimMention && !matched.isEmpty then
      exciseAll text (matched.map (matchedSpan username))
    else text
  (text2, !matched.isEmpty)

/-! ## The group-message filter handler (middleware.go, lines 156-196)

The bot identity `(id, username)` is the result of the guarded `getBotInfo`
fetch; the claims below concern the scanning step, so the handler is embedded
from the point where the identity is available. -/

/-- The text-scan step: when `Entities` is non-nil and `Text` non-empty, run
`checkMention` on the text and store the result back into `Text`; the Bool is
the `isMention` flag after this step. -/
def scanTextStep (id : Int) (username : List Char) (trimMention : Bool)
    (msg : GoMessage) : GoMessage × Bool :=
  match msg.entities with
  | some ents =>
    if msg.text ≠ [] then
      let r := checkMention msg.text ents id username trimMention
      ({ msg with text := r.1 }, r.2)
    else (msg, false)
  | none => (msg, false)

/-- The caption-scan step: taken only when the text scan set no mention flag,
`CaptionEntities` is non-nil and `Caption` non-empty.  Exactly as in the Go
source, the scan result is assigned to `Text` (not `Caption`). -/
def scanCaptionStep (id : Int) (username : List Char) (trimMention : Bool)
    (st : GoMessage × Bool) : GoMessage × Bool :=
  if st.2 then st
  else
    match st.1.captionEntities with
    | some ents =>
      if st.1.caption ≠ [] then
        let r := checkMention st.1.caption ents id username trimMention
        ({ st.1 with text := r.1 }, r.2 || st.2)
      else st
    | none => st

/-- The filter handler of `NewGroupMessageFilterMiddleware` for an update that
carries a message, after the bot identity `(id, username)` has been resolved.
Returns the (possibly rewritten) message together with `true` when the
downstream handler is invoked and `false` when the update is swallowed. -/
def groupMessageFilterStep (id : Int) (username : List Char) (trimMention : Bool)
    (msg : GoMessage) : GoMessage × Bool :=
  if !isGroupChatType msg.chatType then (msg, true)
  else if msg.replyToFromId = some id then (msg, true)
  else
    let st := scanCaptionStep id username trimMention
      (scanTextStep id username trimMention msg)
    (st.1, st.2)

/-! ## Middleware composition (middleware.go, WithMiddleware) -/

/-- A handler instrumented for observation: it threads a trace of labels and
returns an optional error, standing for Go's
`func(ctx, update) error` with the trace in place of the side effects. -/
abbrev HandlerF := List String → List String × Option String

abbrev MiddlewareF := HandlerF → HandlerF

/-- The composition loop of `WithMiddleware`: `handler := h` followed by
`for i := len(middleware)-1; i >= 0; i-- { handler = middleware[i](handler) }`,
which is the right fold of application over the list. -/
def chainMiddlewares (h : HandlerF) (middleware : List MiddlewareF) : HandlerF :=
  middleware.foldr (fun m acc => m acc) h

/-- The wrapper `WithMiddleware` returns: run the composed handler and feed a
non-nil error to the error handler. -/
def withMiddlewareGo (h : HandlerF) (e : List String → String → List String)
    (middleware : List MiddlewareF) : List String → List String :=
  fun trace =>
    let r := chainMiddlewares h middleware trace
    match r.2 with
    | some err => e r.1 err
    | none => r.1

/-- A middleware that records entering and leaving, used to observe call
order. -/
def traceMiddleware (name : String) : MiddlewareF :=
  fun next trace =>
    let r := next (trace ++ ["call " ++ name])
    (r.1 ++ ["ret " ++ name], r.2)

/-- A terminal handler that records its execution and succeeds. -/
def terminalHandler (name : String) : HandlerF :=
  fun trace => (trace ++ ["run " ++ name], none)

/-! ## The default error handler (options.go, newOptions) -/

structure GoCallbackQuery where
  id : List Char
  data : List Char
deriving DecidableEq, Repr

/-- The slice of `models.Update` the pipeline reads: both variants are
nil-able pointers, modelled as `Option`. -/
structure GoUpdate where
  message : Option GoMessage
  callbackQuery : Option GoCallbackQuery
deriving DecidableEq, Repr

/-- Observable outcome of running the error-handling path. -/
inductive HandlerEffect where
  | ok
  | logged (line : List Char)
  | panicked
deriving DecidableEq, Repr

/-- The default `errorHandler` of `newOptions`:
`slog.Error("receive error", slog.String("update", update.Message.Text))`.
Dereferencing the nil-able `Message` pointer is a runtime panic when the
pointer is nil, hence the `none` branch yields `panicked`. -/
def defaultErrorHandlerGo (u : GoUpdate) : HandlerEffect :=
  match u.message with
  | some m => .logged m.text
  | none => .panicked

/-- The error branch of the `bot.HandlerFunc` returned by `WithMiddleware`:
if the composed handler returns a non-nil error, invoke the error handler. -/
def runWithErrorHandler (handler : GoUpdate → Option (List Char))
    (onErr : GoUpdate → HandlerEffect) (u : GoUpdate) : HandlerEffect :=
  match handler u with
  | none => .ok
  | some _ => onErr u

/-! ## Retry on throttle (message.go, RetryOnTooManyRequestsError) -/

/-- Errors an attempt of the platform send can produce:
`bot.TooManyRequestsError` carrying a `RetryAfter` in seconds, or any other
error (identified by a tag). -/
inductive GoErr where
  | tooManyRequests (retryAfter : Nat)
  | otherErr (tag : Nat)
deriving DecidableEq, Repr

/-- What `RetryOnTooManyRequestsError` can return when it fails. -/
inductive RetryErr where
  | maxRetriesExceeded
  | sendErr (e : GoErr)
deriving DecidableEq, Repr

/-- Function `RetryOnTooManyRequestsError(maxRetries, send)`.  The stateful closure
`send` is modelled as a function of the invocation counter `calls`; the
result records the outcome, the final invocation counter, and the list of
sleep durations (seconds) performed, in order. -/
def RetryOnTooManyRequestsErrorGo (maxRetries : Int) (send : Nat → Option GoErr)
    (calls : Nat) : Option RetryErr × Nat × List Nat :=
  if h : maxRetries < 0 then (some .maxRetriesExceeded, calls, [])
  else
    match send calls with
    | none => (none, calls + 1, [])
    | some (.tooManyRequests retryAfter) =>
      let r := RetryOnTooManyRequestsErrorGo (maxRetries - 1) send (calls + 1)
      (r.1, r.2.1, retryAfter :: r.2.2)
    | some (.otherErr tag) => (some (.sendErr (.otherErr tag)), calls + 1, [])
termination_by (maxRetries + 1).toNat
decreasing_by
  simp only [Int.not_lt] at h
  omega

/-- The scenario of the spec's testable property: the send fails twice with a
zero-wait rate-limit error, then succeeds. -/
def twiceThrottledSend : Nat → Option GoErr :=
  fun k => if k < 2 then some (.tooManyRequests 0) else none

/-! ## Broadcast delivery (message.go, BroadcastMessage) -/

/-- Observable events of one `BroadcastMessage` call: a progress report
`(current index, error count, total)` and an invocation of `send` for a
target index. -/
inductive BEvent where
  | progressR (i errs total : Nat)
  | sentR (idx : Nat)
deriving DecidableEq, Repr

/-- The environment of one `BroadcastMessage` call.  `ctxErrAt i` is what
`ctx.Err()` returns at the start of iteration `i`; `waitErrAt i` is the
outcome of `rateLimiter.Wait(ctx)` in iteration `i`; `send i d` the outcome
of `send(ctx, b, d)` for the `i`-th target; `hasProgress` whether a progress
callback was configured; `terminalOnSendError` the stop-on-first-error
option. -/
structure BroadcastEnv (T : Type) where
  ctxErrAt : Nat → Option String
  waitErrAt : Nat → Option String
  send : Nat → T → Option String
  hasProgress : Bool
  terminalOnSendError : Bool

/-- The `for i, d := range data` loop of `BroadcastMessage`, started at
absolute index `i` with `errCount` errors so far.  Returns the returned
error (none = the loop ran to completion), the final error count, and the
trace of events in order. -/
def broadcastLoop {T : Type} (env : BroadcastEnv T) (total : Nat) :
    List T → Nat → Nat → Option String × Nat × List BEvent
  | [], _, errCount => (none, errCount, [])
  | d :: rest, i, errCount =>
    match env.ctxErrAt i with
    | some e => (some e, errCount, [])
    | none =>
      let ev1 : List BEvent := if env.hasProgress then [.progressR i errCount total] else []
      match env.waitErrAt i with
      | some e => (some e, errCount, ev1)
      | none =>
        match env.send i d with
        | some e =>
          if env.terminalOnSendError then (some e, errCount + 1, ev1 ++ [.sentR i])
          else
            let r := broadcastLoop env total rest (i + 1) (errCount + 1)
            (r.1, r.2.1, ev1 ++ [.sentR i] ++ r.2.2)
        | none =>
          let r := broadcastLoop env total rest (i + 1) errCount
          (r.1, r.2.1, ev1 ++ [.sentR i] ++ r.2.2)

/-- Function `BroadcastMessage(ctx, b, data, rateLimiter, send, options...)`: run the
loop and, when it completed without returning, emit the final progress
report `(total, errCount, total)`.  Result: the returned error and the event
trace. -/
def BroadcastMessageGo {T : Type} (env : BroadcastEnv T) (data : List T) :
    Option String × List BEvent :=
  let total := data.length
  let r := broadcastLoop env total data 0 0
  match r.1 with
  | some e => (some e, r.2.2)
  | none =>
    (none, r.2.2 ++ (if env.hasProgress then [.progressR total r.2.1 total] else []))

/-- An environment where the context is never cancelled and the rate limiter
always admits: only `send` can fail, progress is observed, and the delivery
does not stop on send errors. -/
def noAbortEnv {T : Type} (send : Nat → T → Option String) : BroadcastEnv T :=
  ⟨fun _ => none, fun _ => none, send, true, false⟩

/-- Number of failing sends among `data`, the first element having absolute
index `i`. -/
def failCount {T : Type} (send : Nat → T → Option String) : Nat → List T → Nat
  | _, [] => 0
  | i, d :: rest => (if (send i d).isSome then 1 else 0) + failCount send (i + 1) rest

/-- The canonical event trace of a run that never aborts: for each target, a
progress report carrying the number of errors among the earlier targets,
then the send; written as its own recursion so the loop can be checked
against it. -/
def spanTrace {T : Type} (send : Nat → T → Option String) (total : Nat) :
    List T → Nat → Nat → List BEvent
  | [], _, _ => []
  | d :: rest, i, e =>
    .progressR i e total :: .sentR i ::
      spanTrace send total rest (i + 1) (e + if (send i d).isSome then 1 else 0)

/-- The indices of the `send` invocations of a trace, in trace order. -/
def sentIndices (trace : List BEvent) : List Nat :=
  trace.filterMap (fun ev => match ev with | .sentR i => some i | _ => none)

/-! ## Command routing (app.go, BindCommand) -/

/-- The match kinds of the external go-telegram/bot library
(`bot.MatchTypeExact`, `bot.MatchTypePrefix`, `bot.MatchTypeContains`). -/
inductive GoMatchType where
  | exactMatch
  | headMatch
  | containsMatch
deriving DecidableEq, Repr

/-- A registered handler pattern with its match kind. -/
structure Registration where
  pattern : List Char
  matchType : GoMatchType
deriving DecidableEq, Repr

/-- Go `strings.TrimPrefix(command, "/")`: removes one leading slash when
present. -/
def trimLeadingSlash (command : List Char) : List Char :=
  match command with
  | '/' :: rest => rest
  | _ => command

/-- The pattern `BindCommand` stores: `"/" + strings.TrimPrefix(command, "/")`. -/
def bindCommandPattern (command : List Char) : List Char :=
  '/' :: trimLeadingSlash command

/-- The registration `BindCommand` performs:
`RegisterHandler(bot.HandlerTypeMessageText, command, bot.MatchTypePrefix, fn)`. -/
def bindCommandRegistration (command : List Char) : Registration :=
  ⟨bindCommandPattern command, .headMatch⟩

/-- Go `strings.Contains(text, pat)`. -/
def containsSub (pat : List Char) : List Char → Bool
  | [] => pat.isEmpty
  | c :: rest => pat.isPrefixOf (c :: rest) || containsSub pat rest

/-- Dispatch test of the external go-telegram/bot library for a registered
message-text handler: exact compares the whole text, the prefix kind tests
`strings.HasPrefix(text, pattern)`, contains tests substring containment. -/
def registrationMatches (r : Registration) (text : List Char) : Bool :=
  match r.matchType with
  | .exactMatch => text == r.pattern
  | .headMatch => r.pattern.isPrefixOf text
  | .containsMatch => containsSub r.pattern text

/-- The first whitespace-delimited token of a message text, the unit the
claim says commands are matched by. -/
def firstToken (text : List Char) : List Char :=
  text.takeWhile (fun c => c != ' ')

/-! ## Callback-data encoding (encoding.go) -/

/-- Result of `UnmarshalData`: the malformed-input error (no separator), a
decode failure (the route is still returned alongside the error in Go), or
route and value. -/
inductive UnmarshalResult (T : Type) where
  | invalidFormat
  | decodeFailed (route : List Char)
  | ok (route : List Char) (v : T)
deriving DecidableEq, Repr

/-- Go `strings.SplitN(data, sep, 2)`: `none` when the separator does not
occur (the split has a single part), otherwise the parts before and after
the first separator. -/
def splitOnceAt (sep : Char) : List Char → Option (List Char × List Char)
  | [] => none
  | c :: rest =>
    if c = sep then some ([], rest)
    else
      match splitOnceAt sep rest with
      | none => none
      | some (a, b) => some (c :: a, b)

/-- The jsoncompressor serializer is an external collaborator; it is passed
in as a marshal/unmarshal pair of functions. -/
structure Codec (T : Type) where
  marshal : T → List Char
  unmarshal : List Char → Option T

/-- Function `MarshalData(route, data)`: `fmt.Sprintf("%s:%s", route, marshal(data))`. -/
def MarshalDataGo {T : Type} (codec : Codec T) (route : List Char) (v : T) : List Char :=
  route ++ ':' :: codec.marshal v

/-- Function `UnmarshalData(data)`: split once at the first `':'`; fewer than two
parts is the invalid-format error; then unmarshal the remainder. -/
def UnmarshalDataGo {T : Type} (codec : Codec T) (data : List Char) : UnmarshalResult T :=
  match splitOnceAt ':' data with
  | none => .invalidFormat
  | some (route, rest) =>
    match codec.unmarshal rest with
    | none => .decodeFailed route
    | some v => .ok route v

end TelegramBot

namespace TmaAuth

/-! ## TMA launch-token codec (tmaauth/tma.go)

The init-data-golang library is an external collaborator (the spec's Signer
capability).  Its wire form is a signed query string; the JSON encoder and
the query-string encoder are injective and are absorbed into the typed field
values below, so `FieldVal` stands for the encoded string a field carries on
the wire.  The signing primitive itself is a parameter `sign`, exactly the
spec's `sign(fields, secret, timestamp) -> signature`. -/

/-- The identity part of `initdata.User`. -/
structure TUser where
  id : Int
  firstName : String
  lastName : String
  username : String
deriving DecidableEq, Repr

/-- A field value of the serialized claim map: Go strings stay strings,
numbers go through `json.Number`, and structured fields (the user object)
keep their canonical compact serialization. -/
inductive FieldVal where
  | str (s : String)
  | num (n : Int)
  | obj (u : TUser)
deriving DecidableEq, Repr

/-- Type `Claims` (= `initdata.InitData`) restricted to the fields the claims
exercise: the user identity, the chat-instance id, the raw auth timestamp
(Unix seconds) and the hash. -/
structure TmaClaims where
  user : TUser
  chatInstance : Int
  authDateRaw : Int
  hash : String
deriving DecidableEq, Repr

/-- The signing primitive: a deterministic function of the payload fields,
the shared secret and the auth timestamp (HMAC-SHA256 with the WebAppData
key derivation in the real library). -/
abbrev SignFn := List (String × FieldVal) → String → Int → String

/-- Result of `json.Marshal` of `Claims` decoded back into a raw field map (keys in
the library's json-tag names, listed in the sorted order `url.Values.Encode`
later emits). -/
def claimsRawMap (c : TmaClaims) : List (String × FieldVal) :=
  [("auth_date", .num c.authDateRaw),
   ("chat_instance", .num c.chatInstance),
   ("hash", .str c.hash),
   ("user", .obj c.user)]

/-- Go `delete(m, k)` on an association list. -/
def deleteKey (k : String) : List (String × FieldVal) → List (String × FieldVal)
  | [] => []
  | p :: rest => if p.1 = k then deleteKey k rest else p :: deleteKey k rest

/-- A generated token after query-string decoding: the payload fields other
than `hash` and `auth_date`, plus those two distinguished fields. -/
structure Token where
  fields : List (String × FieldVal)
  authDate : Int
  hash : String
deriving DecidableEq, Repr

/-- Function `GenerateToken`: nil claims are rejected; otherwise the claims are
serialized to a field map, `hash` and `auth_date` are removed and recomputed,
the map is signed keyed to the claims' embedded timestamp, and the token is
emitted with all fields plus the recomputed hash and auth_date. -/
def GenerateTokenGo (sign : SignFn) (secret : String) (claims : Option TmaClaims) :
    Except String Token :=
  match claims with
  | none => .error "claims must not be nil"
  | some c =>
    let rawInitMap := deleteKey "auth_date" (deleteKey "hash" (claimsRawMap c))
    let exp := c.authDateRaw
    let sig := sign rawInitMap secret exp
    .ok { fields := rawInitMap, authDate := exp, hash := sig }

/-- Function `initdata.Validate(token, secret, expIn)`: the token is expired when a
positive max age has elapsed since its auth timestamp, and its hash must
equal the signature recomputed from its own fields and auth timestamp with
the given secret.  `none` means validation succeeded. -/
def validateGo (sign : SignFn) (secret : String) (maxAge now : Int) (tok : Token) :
    Option String :=
  if 0 < maxAge ∧ tok.authDate + maxAge < now then some "init data is expired"
  else if sign tok.fields secret tok.authDate ≠ tok.hash then some "sign is invalid"
  else none

/-- Field lookup in the decoded token. -/
def findField (k : String) : List (String × FieldVal) → Option FieldVal
  | [] => none
  | p :: rest => if p.1 = k then some p.2 else findField k rest

/-- Function `initdata.Parse(token)` restricted to the modelled fields: rebuild the
claims from the token's fields, auth timestamp and hash. -/
def parseGo (tok : Token) : Option TmaClaims :=
  match findField "user" tok.fields, findField "chat_instance" tok.fields with
  | some (.obj u), some (.num ci) =>
    some { user := u, chatInstance := ci, authDateRaw := tok.authDate, hash := tok.hash }
  | _, _ => none

/-- Function `ParseToken`: validate against the shared secret and max age, then parse;
any failure yields an error and no claims. -/
def ParseTokenGo (sign : SignFn) (secret : String) (maxAge now : Int) (tok : Token) :
    Except String TmaClaims :=
  match validateGo sign secret maxAge now tok with
  | some e => .error e
  | none =>
    match parseGo tok with
    | none => .error "parse failed"
    | some c => .ok c

end TmaAuth

namespace TelegramBot

/-! ## Concrete instances used to exercise the theorems -/

/-- A send that fails exactly for target index 1. -/
def failSecondSend : Nat → Nat → Option String :=
  fun i _ => if i == 1 then some "boom" else none

/-- A concrete serializer satisfying the round-trip contract. -/
def boolCodec : Codec Bool where
  marshal := fun b => if b then ['1'] else ['0']
  unmarshal := fun s =>
    if s = ['1'] then some true else if s = ['0'] then some false else none

/-- The two-mention group message of the C1 counterexample: text
`"@bot @bot hello"` with two mention entities covering the two `"@bot"`
occurrences. -/
def twoMentionMsg : GoMessage where
  chatType := .group
  text := "@bot @bot hello".toList
  entities := some [⟨.mention, 0, 4, 0⟩, ⟨.mention, 5, 4, 0⟩]
  caption := []
  captionEntities := none
  replyToFromId := none

/-- A group message whose text scan finds no mention and whose caption is
scanned (caption entities present, caption non-empty, none matching). -/
def captionOnlyMsg : GoMessage where
  chatType := .group
  text := "hi".toList
  entities := some []
  caption := "cap".toList
  captionEntities := some []
  replyToFromId := none

end TelegramBot

namespace TmaAuth

/-- A concrete signing primitive for exercising the token theorems: the
signature is simply the secret, which trivially distinguishes distinct
secrets. -/
def echoSign : SignFn := fun _ secret _ => secret

def sampleUser : TUser := ⟨1, "fn", "ln", "un"⟩

def sampleClaims : TmaClaims := ⟨sampleUser, 123, 1000, "h"⟩

/-- The token `GenerateTokenGo echoSign "s1" (some sampleClaims)` yields. -/
def sampleToken : Token where
  fields := [("chat_instance", .num 123), ("user", .obj sampleUser)]
  authDate := 1000
  hash := "s1"

end TmaAuth

/-! # Theorems -/

namespace TelegramBot

/-! ## C8 — middleware composition order -/

/-- C8: for every middleware list `[m1, m2]` and terminal handler `T`,
`WithMiddleware` composes them as `m1 (m2 T)` — m1 outermost — so with
tracing middlewares A and B the observed call order is A, B, T and the
observed return order is T, B, A. -/
theorem withMiddleware_order :
    (∀ (m1 m2 : MiddlewareF) (h : HandlerF), chainMiddlewares h [m1, m2] = m1 (m2 h))
    ∧ chainMiddlewares (terminalHandler "T") [traceMiddleware "A", traceMiddleware "B"] []
        = (["call A", "call B", "run T", "ret B", "ret A"], none) := by
  exact ⟨fun m1 m2 h => rfl, rfl⟩

/-! ## C6 — default error handler dereferences a nil Message -/

/-- C6: when the default error handler is in use and a handler returns a
non-nil error for an update with no `Message`, the handler dereferences the
nil `Message` pointer, producing a runtime panic instead of a log line. -/
theorem defaultErrorHandler_nil_message_panics :
    ∀ (h : GoUpdate → Option (List Char)) (u : GoUpdate) (e : List Char),
      u.message = none → h u = some e →
      runWithErrorHandler h defaultErrorHandlerGo u = .panicked := by
  intro h u e hm hh
  unfold runWithErrorHandler
  rw [hh]
  unfold defaultErrorHandlerGo
  rw [hm]

/-- C6 witness: a callback-query-only update whose handler fails panics the
default error handler. -/
theorem defaultErrorHandler_nil_message_panics_witness :
    runWithErrorHandler (fun _ => some "boom".toList) defaultErrorHandlerGo
      ⟨none, some ⟨"1".toList, "menu:1".toList⟩⟩ = .panicked :=
  defaultErrorHandler_nil_message_panics (fun _ => some "boom".toList)
    ⟨none, some ⟨"1".toList, "menu:1".toList⟩⟩ "boom".toList rfl rfl

/-! ## C2 — BindCommand: canonicalization and dispatch -/

/-- C2 counterexample: the registration for command `"start"` stores the
pattern `"/start"` with the library's prefix match kind, so the message text
`"/startled"` is dispatched to that handler although its first token is not
the registered pattern — refuting exact-token dispatch. -/
theorem bindCommand_exactToken_cex :
    registrationMatches (bindCommandRegistration "start".toList) "/startled".toList = true
    ∧ firstToken "/startled".toList ≠ (bindCommandRegistration "start".toList).pattern := by
  exact ⟨rfl, by decide⟩

/-- C2 amended: a missing leading `"/"` is canonicalized at registration (the
stored pattern always starts with `"/"` and canonicalization is idempotent),
and a command event is dispatched to the handler exactly when the registered
pattern is a prefix of the message text (prefix match, not exact-token
match). -/
theorem bindCommand_canonicalization_and_dispatch :
    ∀ (command text : List Char),
      (bindCommandRegistration command).pattern = '/' :: trimLeadingSlash command
      ∧ (bindCommandRegistration command).pattern.head? = some '/'
      ∧ bindCommandPattern (bindCommandPattern command) = bindCommandPattern command
      ∧ (registrationMatches (bindCommandRegistration command) text = true
          ↔ ∃ rest, text = bindCommandPattern command ++ rest) := by
  intro command text
  refine ⟨rfl, rfl, rfl, ?_⟩
  show (bindCommandPattern command).isPrefixOf text = true ↔ _
  rw [List.isPrefixOf_iff_prefix]
  constructor
  · rintro ⟨rest, hrest⟩
    exact ⟨rest, hrest.symm⟩
  · rintro ⟨rest, hrest⟩
    exact ⟨rest, hrest.symm⟩

/-! ## C9 — callback-data encoding round trip -/

theorem splitOnceAt_marshal (m : List Char) :
    ∀ (route : List Char), ':' ∉ route →
      splitOnceAt ':' (route ++ ':' :: m) = some (route, m) := by
  intro route
  induction route with
  | nil => intro _; simp [splitOnceAt]
  | cons c cs ih =>
    intro hmem
    have hc : c ≠ ':' := fun h => hmem (h ▸ List.mem_cons_self c cs)
    simp [splitOnceAt, hc, ih (fun h => hmem (List.mem_cons_of_mem c h))]

/-- C9: for every serializer satisfying its round-trip contract, every route
without a `':'` character and every value, `UnmarshalData (MarshalData r v)`
returns the route and the value with no error. -/
theorem marshal_unmarshal_roundtrip :
    ∀ {T : Type} (codec : Codec T),
      (∀ v, codec.unmarshal (codec.marshal v) = some v) →
      ∀ (route : List Char) (v : T), ':' ∉ route →
        UnmarshalDataGo codec (MarshalDataGo codec route v) = .ok route v := by
  intro T codec hrt route v hr
  unfold MarshalDataGo UnmarshalDataGo
  rw [splitOnceAt_marshal (codec.marshal v) route hr]
  simp [hrt v]

/-- C9 witness: the concrete Bool serializer round-trips through route
`"test"`. -/
theorem marshal_unmarshal_roundtrip_witness :
    UnmarshalDataGo boolCodec (MarshalDataGo boolCodec "test".toList true)
      = .ok "test".toList true :=
  marshal_unmarshal_roundtrip boolCodec (by decide) "test".toList true (by decide)

end TelegramBot

namespace TelegramBot

/-! ## C3 — retry on throttle -/

/-- C3: `RetryOnTooManyRequestsError` returns nil when the send succeeds; a
rate-limit error sleeps exactly the carried duration and retries with the
budget decremented; any other error is returned immediately with no retry;
a negative budget yields the retries-exceeded error without invoking the
send; and on a send that fails twice with a zero-wait rate-limit error and
then succeeds, budget 2 returns nil after exactly 3 invocations while budget
1 returns the retries-exceeded error after exactly 2 invocations. -/
theorem retryOnTooManyRequests_spec :
    (∀ (n : Int) (send : Nat → Option GoErr) (c : Nat), n < 0 →
        RetryOnTooManyRequestsErrorGo n send c = (some .maxRetriesExceeded, c, []))
    ∧ (∀ (n : Int) (send : Nat → Option GoErr) (c : Nat), 0 ≤ n → send c = none →
        RetryOnTooManyRequestsErrorGo n send c = (none, c + 1, []))
    ∧ (∀ (n : Int) (send : Nat → Option GoErr) (c : Nat) (ra : Nat), 0 ≤ n →
        send c = some (.tooManyRequests ra) →
        RetryOnTooManyRequestsErrorGo n send c
          = ((RetryOnTooManyRequestsErrorGo (n - 1) send (c + 1)).1,
             (RetryOnTooManyRequestsErrorGo (n - 1) send (c + 1)).2.1,
             ra :: (RetryOnTooManyRequestsErrorGo (n - 1) send (c + 1)).2.2))
    ∧ (∀ (n : Int) (send : Nat → Option GoErr) (c : Nat) (tag : Nat), 0 ≤ n →
        send c = some (.otherErr tag) →
        RetryOnTooManyRequestsErrorGo n send c = (some (.sendErr (.otherErr tag)), c + 1, []))
    ∧ RetryOnTooManyRequestsErrorGo 2 twiceThrottledSend 0 = (none, 3, [0, 0])
    ∧ RetryOnTooManyRequestsErrorGo 1 twiceThrottledSend 0
        = (some .maxRetriesExceeded, 2, [0, 0]) := by
  have hneg : ∀ (n : Int) (send : Nat → Option GoErr) (c : Nat), n < 0 →
      RetryOnTooManyRequestsErrorGo n send c = (some .maxRetriesExceeded, c, []) := by
    intro n send c hn
    rw [RetryOnTooManyRequestsErrorGo, dif_pos hn]
  have hok : ∀ (n : Int) (send : Nat → Option GoErr) (c : Nat), 0 ≤ n → send c = none →
      RetryOnTooManyRequestsErrorGo n send c = (none, c + 1, []) := by
    intro n send c hn hs
    rw [RetryOnTooManyRequestsErrorGo, dif_neg (by omega), hs]
  have htoo : ∀ (n : Int) (send : Nat → Option GoErr) (c : Nat) (ra : Nat), 0 ≤ n →
      send c = some (.tooManyRequests ra) →
      RetryOnTooManyRequestsErrorGo n send c
        = ((RetryOnTooManyRequestsErrorGo (n - 1) send (c + 1)).1,
           (RetryOnTooManyRequestsErrorGo (n - 1) send (c + 1)).2.1,
           ra :: (RetryOnTooManyRequestsErrorGo (n - 1) send (c + 1)).2.2) := by
    intro n send c ra hn hs
    rw [RetryOnTooManyRequestsErrorGo, dif_neg (by omega), hs]
  have hother : ∀ (n : Int) (send : Nat → Option GoErr) (c : Nat) (tag : Nat), 0 ≤ n →
      send c = some (.otherErr tag) →
      RetryOnTooManyRequestsErrorGo n send c
        = (some (.sendErr (.otherErr tag)), c + 1, []) := by
    intro n send c tag hn hs
    rw [RetryOnTooManyRequestsErrorGo, dif_neg (by omega), hs]
  have hsend0 : twiceThrottledSend 0 = some (.tooManyRequests 0) := rfl
  have hsend1 : twiceThrottledSend 1 = some (.tooManyRequests 0) := rfl
  have hsend2 : twiceThrottledSend 2 = none := rfl
  refine ⟨hneg, hok, htoo, hother, ?_, ?_⟩
  · rw [htoo 2 twiceThrottledSend 0 0 (by omega) hsend0]
    rw [htoo (2 - 1) twiceThrottledSend 1 0 (by omega) hsend1]
    rw [hok (2 - 1 - 1) twiceThrottledSend 2 (by omega) hsend2]
  · rw [htoo 1 twiceThrottledSend 0 0 (by omega) hsend0]
    rw [htoo (1 - 1) twiceThrottledSend 1 0 (by omega) hsend1]
    rw [hneg (1 - 1 - 1) twiceThrottledSend 2 (by omega)]

/-- C3 witness: the branch behaviors of the retry policy observed at concrete
inputs. -/
theorem retryOnTooManyRequests_spec_witness :
    RetryOnTooManyRequestsErrorGo (-1) twiceThrottledSend 5
      = (some .maxRetriesExceeded, 5, [])
    ∧ RetryOnTooManyRequestsErrorGo 0 (fun _ => none) 0 = (none, 1, [])
    ∧ RetryOnTooManyRequestsErrorGo 3 (fun _ => some (.tooManyRequests 7)) 0
        = ((RetryOnTooManyRequestsErrorGo 2 (fun _ => some (.tooManyRequests 7)) 1).1,
           (RetryOnTooManyRequestsErrorGo 2 (fun _ => some (.tooManyRequests 7)) 1).2.1,
           7 :: (RetryOnTooManyRequestsErrorGo 2 (fun _ => some (.tooManyRequests 7)) 1).2.2)
    ∧ RetryOnTooManyRequestsErrorGo 4 (fun _ => some (.otherErr 9)) 2
        = (some (.sendErr (.otherErr 9)), 3, []) := by
  refine ⟨retryOnTooManyRequests_spec.1 (-1) twiceThrottledSend 5 (by omega),
          retryOnTooManyRequests_spec.2.1 0 (fun _ => none) 0 (by omega) rfl,
          ?_, retryOnTooManyRequests_spec.2.2.2.1 4 (fun _ => some (.otherErr 9)) 2 9
            (by omega) rfl⟩
  have h := retryOnTooManyRequests_spec.2.2.1 3 (fun _ => some (.tooManyRequests 7)) 0 7
    (by omega) rfl
  simpa using h

end TelegramBot

namespace TelegramBot

/-! ## C1 — the mention scan trims inside the pass -/

theorem checkMentionLoop_eq_foldl (id : Int) (username : List Char) (trimMention : Bool) :
    ∀ (es : List MessageEntity) (text : List Char) (m : Bool),
      checkMentionLoop id username trimMention es text m
        = es.foldl (checkMentionStep id username trimMention) (text, m) := by
  intro es
  induction es with
  | nil => intro text m; rfl
  | cons e rest ih =>
    intro text m
    rcases e with ⟨ty, off, len, uid⟩
    cases ty <;>
      simp only [checkMentionLoop, checkMentionStep, List.foldl] <;>
      first
      | (split <;> exact ih _ _)
      | exact ih _ _

/-- C1 counterexample: on the group message `"@bot @bot hello"` with two
mention entities and `trimMention` set, the filter trims the first match
inside the scan, so the second entity reads the already-mutated string and
fails to match; the resulting text still contains `"@bot"`, while a scan
that judges every entity against the original offsets and excises only after
the pass — what the claim states — would produce `"  hello"`. -/
theorem mentionScan_staleOffsets_cex :
    (groupMessageFilterStep 42 "bot".toList true twoMentionMsg).1.text
      = " @bot hello".toList
    ∧ checkMentionSpecScan "@bot @bot hello".toList
        [⟨.mention, 0, 4, 0⟩, ⟨.mention, 5, 4, 0⟩] 42 "bot".toList true
      = ("  hello".toList, true)
    ∧ (groupMessageFilterStep 42 "bot".toList true twoMentionMsg).1.text
        ≠ (checkMentionSpecScan "@bot @bot hello".toList
            [⟨.mention, 0, 4, 0⟩, ⟨.mention, 5, 4, 0⟩] 42 "bot".toList true).1 := by
  exact ⟨rfl, rfl, by decide⟩

/-- C1 amended: the scan evaluates each entity against the live string as
already mutated by earlier trims of the same pass — `checkMention` is the
left fold of the single-entity step, whose substring extraction and
immediate excision both act on the accumulated text — so on the two-mention
message the second entity indexes the trimmed string, fails to match, and
the first `"@bot"` alone is excised. -/
theorem mentionScan_liveText_foldl :
    (∀ (text : List Char) (entities : List MessageEntity) (id : Int)
       (username : List Char) (trimMention : Bool),
       checkMention text entities id username trimMention
         = entities.foldl (checkMentionStep id username trimMention) (text, false))
    ∧ checkMention "@bot @bot hello".toList
        [⟨.mention, 0, 4, 0⟩, ⟨.mention, 5, 4, 0⟩] 42 "bot".toList true
      = (" @bot hello".toList, true) := by
  exact ⟨fun text entities id username trimMention =>
    checkMentionLoop_eq_foldl id username trimMention entities text false, rfl⟩

end TelegramBot

namespace TelegramBot

/-! ## C5 — the caption scan result lands in Message.Text -/

theorem scanTextStep_preserves_captions (id : Int) (username : List Char)
    (trimMention : Bool) (msg : GoMessage) :
    (scanTextStep id username trimMention msg).1.caption = msg.caption
    ∧ (scanTextStep id username trimMention msg).1.captionEntities = msg.captionEntities := by
  unfold scanTextStep
  cases msg.entities <;> simp <;> split <;> simp

theorem scanCaptionStep_preserves_caption (id : Int) (username : List Char)
    (trimMention : Bool) (st : GoMessage × Bool) :
    (scanCaptionStep id username trimMention st).1.caption = st.1.caption := by
  unfold scanCaptionStep
  split
  · rfl
  · cases st.1.captionEntities <;> simp <;> split <;> simp

/-- C5: for every group message, the filter never modifies
`Message.Caption`; and whenever the text scan found no mention and the
caption is then scanned, the scan result — the caption, trimmed or not — is
written into `Message.Text`, overwriting the original text. -/
theorem mentionFilter_captionScan_overwrites_text :
    ∀ (id : Int) (username : List Char) (trimMention : Bool) (msg : GoMessage)
      (ents : List MessageEntity),
      (groupMessageFilterStep id username trimMention msg).1.caption = msg.caption
      ∧ (isGroupChatType msg.chatType = true →
         msg.replyToFromId ≠ some id →
         (scanTextStep id username trimMention msg).2 = false →
         msg.captionEntities = some ents →
         msg.caption ≠ [] →
         (groupMessageFilterStep id username trimMention msg).1.text
           = (checkMention msg.caption ents id username trimMention).1) := by
  intro id username trimMention msg ents
  constructor
  · unfold groupMessageFilterStep
    split
    · rfl
    · split
      · rfl
      · rw [scanCaptionStep_preserves_caption,
            (scanTextStep_preserves_captions id username trimMention msg).1]
  · intro hG hR hT hCE hC
    unfold groupMessageFilterStep
    rw [if_neg (by simp [hG]), if_neg hR]
    have h1 := (scanTextStep_preserves_captions id username trimMention msg).1
    have h2 := (scanTextStep_preserves_captions id username trimMention msg).2
    unfold scanCaptionStep
    rw [hT]
    simp only [Bool.false_eq_true, if_false, h1, h2, hCE]
    rw [if_pos hC]

/-- C5 witness: a group message with an unmatched caption entity scan gets
its text overwritten by the caption while the caption itself is untouched. -/
theorem mentionFilter_captionScan_overwrites_text_witness :
    (groupMessageFilterStep 1 "bot".toList false captionOnlyMsg).1.caption = "cap".toList
    ∧ (groupMessageFilterStep 1 "bot".toList false captionOnlyMsg).1.text
        = (checkMention "cap".toList [] 1 "bot".toList false).1 := by
  have h := mentionFilter_captionScan_overwrites_text 1 "bot".toList false captionOnlyMsg []
  exact ⟨h.1, h.2 rfl (by simp [captionOnlyMsg]) rfl rfl (by decide)⟩

end TelegramBot

namespace TelegramBot

/-! ## C4 — broadcast delivery -/

theorem noAbortEnv_ctxErrAt {T : Type} (send : Nat → T → Option String) (i : Nat) :
    (noAbortEnv send).ctxErrAt i = none := rfl

theorem noAbortEnv_waitErrAt {T : Type} (send : Nat → T → Option String) (i : Nat) :
    (noAbortEnv send).waitErrAt i = none := rfl

theorem noAbortEnv_send {T : Type} (send : Nat → T → Option String) :
    (noAbortEnv send).send = send := rfl

theorem noAbortEnv_hasProgress {T : Type} (send : Nat → T → Option String) :
    (noAbortEnv send).hasProgress = true := rfl

theorem noAbortEnv_stop {T : Type} (send : Nat → T → Option String) :
    (noAbortEnv send).terminalOnSendError = false := rfl

theorem broadcastLoop_noAbort {T : Type} (send : Nat → T → Option String) (total : Nat) :
    ∀ (data : List T) (i e : Nat),
      broadcastLoop (noAbortEnv send) total data i e
        = (none, e + failCount send i data, spanTrace send total data i e) := by
  intro data
  induction data with
  | nil => intro i e; simp [broadcastLoop, failCount, spanTrace]
  | cons d rest ih =>
    intro i e
    simp only [broadcastLoop, noAbortEnv_ctxErrAt, noAbortEnv_waitErrAt, noAbortEnv_send,
      noAbortEnv_hasProgress, noAbortEnv_stop, if_true, failCount, spanTrace]
    cases hs : send i d with
    | none => simp [hs, ih (i + 1) e]
    | some err => simp [hs, ih (i + 1) (e + 1), Nat.add_assoc]

theorem sentIndices_append (a b : List BEvent) :
    sentIndices (a ++ b) = sentIndices a ++ sentIndices b :=
  List.filterMap_append a b _

theorem sentIndices_spanTrace {T : Type} (send : Nat → T → Option String) (total : Nat) :
    ∀ (data : List T) (i e : Nat),
      sentIndices (spanTrace send total data i e) = List.range' i data.length := by
  intro data
  induction data with
  | nil => intro i e; rfl
  | cons d rest ih =>
    intro i e
    simp only [spanTrace, sentIndices, List.filterMap, List.length_cons, List.range'_succ]
    rw [← sentIndices, ih (i + 1) _]

/-- C4: with an admitting rate limiter, an uncancelled context and
`stopOnFirstError` unset, `BroadcastMessage` returns nil and its observable
trace is exactly: for each target in input order, a progress report
`(index, errors so far, total)` followed by the send, and one final report
`(total, errorCount, total)`; the send invocations cover the indices in
order.  With 3 targets and the send failing only for index 1, it returns
nil, sends to 0, 1, 2 in order and ends with the report `(3, 1, 3)`; the
same scenario with `stopOnFirstError` set aborts at index 1 returning the
send error. -/
theorem broadcastMessage_spec :
    (∀ {T : Type} (send : Nat → T → Option String) (data : List T),
       BroadcastMessageGo (noAbortEnv send) data
         = (none, spanTrace send data.length data 0 0
             ++ [.progressR data.length (failCount send 0 data) data.length])
       ∧ sentIndices (BroadcastMessageGo (noAbortEnv send) data).2
           = List.range data.length)
    ∧ BroadcastMessageGo (noAbortEnv failSecondSend) [10, 20, 30]
        = (none, [.progressR 0 0 3, .sentR 0, .progressR 1 0 3, .sentR 1,
                  .progressR 2 1 3, .sentR 2, .progressR 3 1 3])
    ∧ BroadcastMessageGo ⟨fun _ => none, fun _ => none, failSecondSend, true, true⟩ [10, 20, 30]
        = (some "boom", [.progressR 0 0 3, .sentR 0, .progressR 1 0 3, .sentR 1]) := by
  have hmain : ∀ {T : Type} (send : Nat → T → Option String) (data : List T),
      BroadcastMessageGo (noAbortEnv send) data
        = (none, spanTrace send data.length data 0 0
            ++ [.progressR data.length (failCount send 0 data) data.length]) := by
    intro T send data
    simp only [BroadcastMessageGo, broadcastLoop_noAbort send data.length data 0 0,
      noAbortEnv_hasProgress, if_true, Nat.zero_add]
  refine ⟨fun send data => ⟨hmain send data, ?_⟩, ?_, ?_⟩
  · rw [hmain send data]
    show sentIndices (spanTrace send data.length data 0 0
      ++ [.progressR data.length (failCount send 0 data) data.length]) = List.range data.length
    rw [sentIndices_append, sentIndices_spanTrace send data.length data 0 0,
      List.range_eq_range']
    simp [sentIndices]
  · rfl
  · rfl

end TelegramBot

namespace TmaAuth

/-! ## C10 — launch-token generate/validate round trip -/

theorem claimsFields_eq (c : TmaClaims) :
    deleteKey "auth_date" (deleteKey "hash" (claimsRawMap c))
      = [("chat_instance", .num c.chatInstance), ("user", .obj c.user)] := rfl

/-- C10: for every signing primitive, secret and non-nil claims, the token
`GenerateToken` produces validates under the same secret while the max age
has not elapsed since the embedded auth timestamp, and `ParseToken` then
returns claims with the same user, chat-instance and auth-date fields; with
a secret whose signature differs (a wrong secret), or once a positive max
age has elapsed, `ParseToken` returns an error and no claims. -/
theorem tma_token_roundtrip :
    ∀ (sign : SignFn) (secret : String) (c : TmaClaims) (maxAge now : Int) (tok : Token),
      GenerateTokenGo sign secret (some c) = .ok tok →
      ((¬(0 < maxAge ∧ tok.authDate + maxAge < now) →
          ParseTokenGo sign secret maxAge now tok
            = .ok { user := c.user, chatInstance := c.chatInstance,
                    authDateRaw := c.authDateRaw,
                    hash := sign tok.fields secret tok.authDate })
       ∧ (∀ secret' : String,
            sign tok.fields secret' tok.authDate ≠ sign tok.fields secret tok.authDate →
            ∃ msg, ParseTokenGo sign secret' maxAge now tok = .error msg)
       ∧ (0 < maxAge → tok.authDate + maxAge < now →
            ParseTokenGo sign secret maxAge now tok = .error "init data is expired")) := by
  intro sign secret c maxAge now tok hGen
  simp only [GenerateTokenGo, claimsFields_eq] at hGen
  rw [Except.ok.injEq] at hGen
  subst hGen
  refine ⟨?_, ?_, ?_⟩
  · intro hne
    unfold ParseTokenGo validateGo
    rw [if_neg hne, if_neg (fun h => h rfl)]
    rfl
  · intro secret' hdiff
    by_cases hexp : 0 < maxAge ∧
        (Token.mk [("chat_instance", .num c.chatInstance), ("user", .obj c.user)]
          c.authDateRaw
          (sign [("chat_instance", .num c.chatInstance), ("user", .obj c.user)]
            secret c.authDateRaw)).authDate + maxAge < now
    · exact ⟨"init data is expired", by unfold ParseTokenGo validateGo; rw [if_pos hexp]⟩
    · refine ⟨"sign is invalid", ?_⟩
      unfold ParseTokenGo validateGo
      rw [if_neg hexp, if_pos hdiff]
  · intro h1 h2
    unfold ParseTokenGo validateGo
    rw [if_pos ⟨h1, h2⟩]

/-- C10 witness: with the echo signing primitive, secret `"s1"` and the
sample claims, the generated token parses back to the identity fields, fails
under secret `"s2"`, and fails once the max age has elapsed. -/
theorem tma_token_roundtrip_witness :
    GenerateTokenGo echoSign "s1" (some sampleClaims) = .ok sampleToken
    ∧ ParseTokenGo echoSign "s1" 3600 2001 sampleToken
        = .ok { user := sampleUser, chatInstance := 123, authDateRaw := 1000, hash := "s1" }
    ∧ (∃ msg, ParseTokenGo echoSign "s2" 3600 2001 sampleToken = .error msg)
    ∧ ParseTokenGo echoSign "s1" 3600 99999 sampleToken = .error "init data is expired" := by
  have h1 := tma_token_roundtrip echoSign "s1" sampleClaims 3600 2001 sampleToken rfl
  have h2 := tma_token_roundtrip echoSign "s1" sampleClaims 3600 99999 sampleToken rfl
  refine ⟨rfl, ?_, ?_, ?_⟩
  · exact h1.1 (by decide)
  · exact h1.2.1 "s2" (by decide)
  · exact h2.2.2 (by decide) (by decide)

end TmaAuth
